import Mathlib

/-
Verification of the notification control deck (source/plugin/pause-plugin.ts)
and of the graph flushing / root-destination behaviour of rxjs-spy.

The deck is embedded shallowly: JavaScript Map iteration order is insertion
order, so the states map becomes an association list; the per-state subject
(subject_.next calls) is modelled by the list of notifications forwarded so
far; the stats subject (stats_.next calls) is modelled by a log of published
DeckStats records; unsubscribing a subscription is modelled by recording its
identifier in a list of closed subscriptions.
-/

namespace RxjsSpy

/-- A reified notification record, as produced by the materialize operator:
a next value, an error, or a completion. -/
inductive Notification (α : Type) where
  | nextN : α → Notification α
  | errorN : Nat → Notification α
  | completeN : Notification α
deriving DecidableEq

/-- Statistics published on the stats subject of a deck
(interface DeckStats in pause-plugin.ts). -/
structure DeckStats where
  notifications : Nat
  paused : Bool
deriving DecidableEq

/-- Per-observable interception state (interface State in pause-plugin.ts).
The field subject_ of the source is modelled by forwarded_, the list of all
notifications pushed into the subject so far, oldest first. The field
subscription_ holds the identifier of the interception subscription, or none
when the reference has been cleared (undefined in the source). -/
structure State (α : Type) where
  notifications_ : List (Notification α)
  forwarded_ : List (Notification α)
  subscription_ : Option Nat
  tag_ : Option String
deriving DecidableEq

/-- The deck (class Deck in pause-plugin.ts). Observables are identified by
Nat keys; states_ keeps insertion order like a JavaScript Map. statsLog_ is
the list of records published on the stats subject, oldest first. closed_
lists the subscription identifiers on which unsubscribe was called.
nextSubId_ supplies fresh subscription identifiers. -/
structure Deck (α : Type) where
  paused_ : Bool
  states_ : List (Nat × State α)
  statsLog_ : List DeckStats
  closed_ : List Nat
  nextSubId_ : Nat
deriving DecidableEq

/-- Constructor of Deck: paused_ starts true, no states, nothing published. -/
def Deck.new (α : Type) : Deck α :=
  { paused_ := true, states_ := [], statsLog_ := [], closed_ := [], nextSubId_ := 0 }

/-- Look up the state stored for an observable key, as Map.prototype.get. -/
def lookupState (obs : Nat) : List (Nat × State α) → Option (State α)
  | [] => none
  | (k, s) :: rest => if k = obs then some s else lookupState obs rest

/-- Replace the state stored for an observable key in place, keeping the
insertion order of the map. -/
def updateState (obs : Nat) (f : State α → State α) :
    List (Nat × State α) → List (Nat × State α)
  | [] => []
  | (k, s) :: rest =>
    if k = obs then (k, f s) :: rest else (k, s) :: updateState obs f rest

/-- Apply a function to every stored state, as states_.forEach does. -/
def mapStates (f : State α → State α) (d : Deck α) : Deck α :=
  { d with states_ := d.states_.map (fun p => (p.1, f p.2)) }

/-- Total number of buffered notifications across all states, as computed by
broadcast_ in the source. -/
def Deck.bufferTotal (d : Deck α) : Nat :=
  d.states_.foldl (fun acc p => acc + p.2.notifications_.length) 0

/-- The statistics record describing the current deck state. -/
def Deck.currentStats (d : Deck α) : DeckStats :=
  { notifications := d.bufferTotal, paused := d.paused_ }

/-- Deck.broadcast_ : publish the current statistics on the stats subject. -/
def Deck.broadcast_ (d : Deck α) : Deck α :=
  { d with statsLog_ := d.statsLog_ ++ [d.currentStats] }

/-- Deck.clear : drop from every buffer the notifications matching the
predicate (the source keeps those for which the predicate is false), then
broadcast. The default predicate of the source accepts everything. -/
def Deck.clear (d : Deck α) (p : Notification α → Bool) : Deck α :=
  (mapStates
    (fun s => { s with notifications_ := s.notifications_.filter (fun n => !(p n)) })
    d).broadcast_

/-- Deck.pause : set paused_ and broadcast. -/
def Deck.pause (d : Deck α) : Deck α :=
  ({ d with paused_ := true } : Deck α).broadcast_

/-- Drain one state for resume: every buffered notification is pushed into
the subject in arrival order, leaving the buffer empty. -/
def State.drain (s : State α) : State α :=
  { s with forwarded_ := s.forwarded_ ++ s.notifications_, notifications_ := [] }

/-- Deck.resume : drain every buffer in order, clear paused_, broadcast. -/
def Deck.resume (d : Deck α) : Deck α :=
  ({ mapStates State.drain d with paused_ := false } : Deck α).broadcast_

/-- Drop the oldest buffered notification of one state, if any. -/
def State.skipOne (s : State α) : State α :=
  match s.notifications_ with
  | [] => s
  | _ :: rest => { s with notifications_ := rest }

/-- Forward the oldest buffered notification of one state, if any. -/
def State.stepOne (s : State α) : State α :=
  match s.notifications_ with
  | [] => s
  | n :: rest => { s with notifications_ := rest, forwarded_ := s.forwarded_ ++ [n] }

/-- Deck.skip : discard the oldest buffered notification of every state,
then broadcast. -/
def Deck.skip (d : Deck α) : Deck α :=
  (mapStates State.skipOne d).broadcast_

/-- Deck.step : forward the oldest buffered notification of every state,
then broadcast. -/
def Deck.step (d : Deck α) : Deck α :=
  (mapStates State.stepOne d).broadcast_

/-- Subscription identifiers currently held by the states, in map order. -/
def heldSubIds (l : List (Nat × State α)) : List Nat :=
  l.filterMap (fun p => p.2.subscription_)

/-- Deck.unsubscribe : for every state holding a subscription, unsubscribe it
and clear the reference, then broadcast. Buffers are not touched. -/
def Deck.unsubscribe (d : Deck α) : Deck α :=
  ({ d with
      states_ := d.states_.map (fun p => (p.1, { p.2 with subscription_ := none })),
      closed_ := d.closed_ ++ heldSubIds d.states_ } : Deck α).broadcast_

/-- The state getOperator creates for a newly intercepted observable: empty
buffer, fresh subject, the given subscription identifier, the tag read from
the observable. -/
def freshState {α : Type} (read : Nat → Option String) (subId obs : Nat) : State α :=
  { notifications_ := [], forwarded_ := [], subscription_ := some subId, tag_ := read obs }

/-- Deck.getOperator, at the moment the returned operator function is applied
to a source observable. Given the observable of the subscription record: when
a state already exists its current subscription is unsubscribed first (the
source dereferences subscription_ with a non-null assertion, so a cleared
reference makes the call throw, modelled by none); otherwise a fresh state is
created with the tag read from the observable and appended to the map. Either
way a fresh interception subscription is installed and stats are broadcast.
The read parameter models the tag lookup of the match module. -/
def Deck.getOperator (read : Nat → Option String) (d : Deck α) (obs : Nat) :
    Option (Deck α) :=
  match lookupState obs d.states_ with
  | some st =>
    match st.subscription_ with
    | none => none
    | some old =>
      some (({ d with
          states_ := updateState obs (fun s => { s with subscription_ := some d.nextSubId_ }) d.states_,
          closed_ := d.closed_ ++ [old],
          nextSubId_ := d.nextSubId_ + 1 } : Deck α).broadcast_)
  | none =>
    some (({ d with
        states_ := d.states_ ++ [(obs, freshState read d.nextSubId_ obs)],
        nextSubId_ := d.nextSubId_ + 1 } : Deck α).broadcast_)

/-- The next callback of the interception subscription installed by
getOperator: when the deck is paused the notification is appended to the
buffer, otherwise it is pushed into the subject; then stats are broadcast.
When no state exists for the observable no interception stage is installed
and nothing happens. -/
def Deck.onNotification (d : Deck α) (obs : Nat) (n : Notification α) : Deck α :=
  match lookupState obs d.states_ with
  | none => d
  | some _ =>
    ({ d with
        states_ := updateState obs
          (fun s =>
            if d.paused_ then { s with notifications_ := s.notifications_ ++ [n] }
            else { s with forwarded_ := s.forwarded_ ++ [n] })
          d.states_ } : Deck α).broadcast_

/-- Modelled from the spec: the graph-plugin source is not part of the
provided sources, only its tests are. The destination links of the graph are
modelled as a partial map from node identifiers to the identifier of the node
that directly consumes their output; destChain walks the links, collecting
the visited nodes, with fuel bounding the walk so that it terminates. -/
def destChain (g : Nat → Option Nat) : Nat → Nat → List Nat
  | 0, _ => []
  | fuel + 1, n =>
    match g n with
    | none => []
    | some m => m :: destChain g fuel m

/-- Modelled from the spec: rootDestination is the furthest non-null
destination reachable by following destination links, null when the node is
already a root. -/
def rootDestination (g : Nat → Option Nat) (fuel n : Nat) : Option Nat :=
  (destChain g fuel n).getLast?

/-- The three-node chain of the root-destination test: node 0 is observed by
node 1, node 1 by node 2, node 2 by nobody. -/
def chainG : Nat → Option Nat :=
  fun n => if n = 0 then some 1 else if n = 1 then some 2 else none

/-- Modelled from the spec: the state the flush scheduler acts on, restricted
to what the flushing tests observe. It holds the source list of the sentinel
and the armed timers, each a pair of fire time and node to remove. -/
structure FlushState where
  sources : List Nat
  pending : List (Nat × Nat)
deriving DecidableEq

/-- Modelled from the spec: the terminal event of a subscription is a
completion, an error, or an explicit unsubscription. -/
inductive Outcome where
  | completed : Outcome
  | errored : Outcome
  | unsubscribed : Outcome
deriving DecidableEq

/-- Modelled from the spec: scheduleFlush at the terminal event of a node.
Whatever the outcome, with retention window zero the node is removed from
the sentinel sources synchronously, via the same removal path; otherwise a
timer of the retention window duration is armed and the sources are left
untouched. -/
def FlushState.terminate (fs : FlushState) (now window node : Nat)
    (_outcome : Outcome) : FlushState :=
  if window = 0 then
    { fs with sources := fs.sources.filter (fun s => !(s == node)) }
  else
    { fs with pending := fs.pending ++ [(now + window, node)] }

/-- Modelled from the spec: the passage of time up to the given instant.
Every timer whose fire time has been reached fires, removing its node from
the sentinel sources, and is discarded. -/
def FlushState.elapse (fs : FlushState) (now : Nat) : FlushState :=
  { sources := fs.sources.filter
      (fun s => !(fs.pending.any (fun p => decide (p.1 ≤ now) && p.2 == s))),
    pending := fs.pending.filter (fun p => !(decide (p.1 ≤ now))) }

/-- Decks reachable from the constructor through the public operations; the
read function is the tag lookup that getOperator consults. -/
inductive Reachable {α : Type} (read : Nat → Option String) : Deck α → Prop where
  | new : Reachable read (Deck.new α)
  | pause {d : Deck α} : Reachable read d → Reachable read d.pause
  | resume {d : Deck α} : Reachable read d → Reachable read d.resume
  | skip {d : Deck α} : Reachable read d → Reachable read d.skip
  | step {d : Deck α} : Reachable read d → Reachable read d.step
  | clear {d : Deck α} (p : Notification α → Bool) :
      Reachable read d → Reachable read (d.clear p)
  | unsub {d : Deck α} : Reachable read d → Reachable read d.unsubscribe
  | getOp {d d' : Deck α} (obs : Nat) :
      Reachable read d → Deck.getOperator read d obs = some d' → Reachable read d'
  | notif {d : Deck α} (obs : Nat) (n : Notification α) :
      Reachable read d → Reachable read (d.onNotification obs n)

/-- Invariants maintained by every reachable deck: the map keys are distinct
(one state per observable), held subscription identifiers are below the next
fresh one, closed identifiers likewise, a resumed deck has empty buffers, and
the last published statistics record describes the current state. -/
structure DeckInv {α : Type} (d : Deck α) : Prop where
  keysNodup : (d.states_.map Prod.fst).Nodup
  subIdsLt : ∀ q ∈ d.states_, ∀ i, q.2.subscription_ = some i → i < d.nextSubId_
  closedLt : ∀ i ∈ d.closed_, i < d.nextSubId_
  emptyWhenResumed : d.paused_ = false → ∀ q ∈ d.states_, q.2.notifications_ = []
  statsSync : d.statsLog_ = [] ∨ d.statsLog_.getLast? = some d.currentStats

/-- Fixture state used by the witnesses: one intercepted observable with an
empty buffer and a live subscription. -/
def wSt : State Nat :=
  { notifications_ := [], forwarded_ := [], subscription_ := some 0, tag_ := none }

/-- Fixture deck used by the witnesses: paused, tracking observable 0. -/
def wDeck : Deck Nat :=
  { paused_ := true, states_ := [(0, wSt)], statsLog_ := [], closed_ := [], nextSubId_ := 1 }

/-- Fixture state with the two buffered notifications 1 and 2. -/
def wSt2 : State Nat :=
  { notifications_ := [Notification.nextN 1, Notification.nextN 2], forwarded_ := [],
    subscription_ := some 0, tag_ := none }

/-- Fixture paused deck whose single stream has buffer [1, 2]. -/
def wDeck2 : Deck Nat :=
  { paused_ := true, states_ := [(0, wSt2)], statsLog_ := [], closed_ := [], nextSubId_ := 1 }

/-- Fixture tag lookup used by the witnesses: no observable is tagged. -/
def wRead : Nat → Option String := fun _ => none

/-- Fixture reachable deck: the result of installing an interception stage
for observable 0 on a fresh deck. -/
def wDeckR : Deck Nat :=
  ((Deck.new Nat).getOperator wRead 0).getD (Deck.new Nat)

section DeckLemmas

variable {α : Type}

@[simp]
theorem Deck.broadcast_paused (d : Deck α) : d.broadcast_.paused_ = d.paused_ := rfl

@[simp]
theorem Deck.broadcast_states (d : Deck α) : d.broadcast_.states_ = d.states_ := rfl

@[simp]
theorem Deck.broadcast_closed (d : Deck α) : d.broadcast_.closed_ = d.closed_ := rfl

@[simp]
theorem Deck.broadcast_nextSubId (d : Deck α) :
    d.broadcast_.nextSubId_ = d.nextSubId_ := rfl

@[simp]
theorem Deck.broadcast_statsLog (d : Deck α) :
    d.broadcast_.statsLog_ = d.statsLog_ ++ [d.currentStats] := rfl

theorem lookupState_map (f : State α → State α) (l : List (Nat × State α)) (obs : Nat) :
    lookupState obs (l.map (fun p => (p.1, f p.2))) = (lookupState obs l).map f := by
  induction l with
  | nil => rfl
  | cons p rest ih =>
    obtain ⟨k, s⟩ := p
    by_cases h : k = obs <;> simp [lookupState, h, ih]

theorem lookupState_updateState_self (f : State α → State α)
    (l : List (Nat × State α)) (obs : Nat) :
    lookupState obs (updateState obs f l) = (lookupState obs l).map f := by
  induction l with
  | nil => rfl
  | cons p rest ih =>
    obtain ⟨k, s⟩ := p
    by_cases h : k = obs <;> simp [lookupState, updateState, h, ih]

theorem lookupState_updateState_ne (f : State α → State α)
    (l : List (Nat × State α)) (obs k : Nat) (h : k ≠ obs) :
    lookupState k (updateState obs f l) = lookupState k l := by
  induction l with
  | nil => rfl
  | cons p rest ih =>
    obtain ⟨k', s⟩ := p
    by_cases hk : k' = obs
    · subst hk
      simp [lookupState, updateState, Ne.symm h]
    · by_cases hk' : k' = k
      · subst hk'
        simp [lookupState, updateState, hk, h]
      · simp [lookupState, updateState, hk, hk', ih]

theorem lookupState_append_new (l : List (Nat × State α)) (obs : Nat) (s : State α)
    (h : lookupState obs l = none) :
    lookupState obs (l ++ [(obs, s)]) = some s := by
  induction l with
  | nil => simp [lookupState]
  | cons p rest ih =>
    obtain ⟨k, s'⟩ := p
    by_cases hk : k = obs
    · simp [lookupState, hk] at h
    · simp only [lookupState, hk, if_false, List.cons_append] at h ⊢
      exact ih h

theorem updateState_length (f : State α → State α) (l : List (Nat × State α)) (obs : Nat) :
    (updateState obs f l).length = l.length := by
  induction l with
  | nil => rfl
  | cons p rest ih =>
    obtain ⟨k, s⟩ := p
    by_cases h : k = obs <;> simp [updateState, h, ih]

theorem updateState_map_fst (f : State α → State α) (l : List (Nat × State α)) (obs : Nat) :
    (updateState obs f l).map Prod.fst = l.map Prod.fst := by
  induction l with
  | nil => rfl
  | cons p rest ih =>
    obtain ⟨k, s⟩ := p
    by_cases h : k = obs <;> simp [updateState, h, ih]

theorem lookupState_eq_none_iff (l : List (Nat × State α)) (obs : Nat) :
    lookupState obs l = none ↔ obs ∉ l.map Prod.fst := by
  induction l with
  | nil => simp [lookupState]
  | cons p rest ih =>
    obtain ⟨k, s⟩ := p
    by_cases h : k = obs
    · subst h
      simp [lookupState]
    · simp [lookupState, h, ih, Ne.symm h]

theorem lookupState_mem (l : List (Nat × State α)) (obs : Nat) (st : State α)
    (h : lookupState obs l = some st) : (obs, st) ∈ l := by
  induction l with
  | nil => simp [lookupState] at h
  | cons p rest ih =>
    obtain ⟨k, s⟩ := p
    by_cases hk : k = obs
    · subst hk
      simp [lookupState] at h
      simp [h]
    · simp only [lookupState, hk, if_false] at h
      exact List.mem_cons_of_mem _ (ih h)

theorem mem_updateState (f : State α → State α) (l : List (Nat × State α))
    (obs : Nat) (p : Nat × State α) (h : p ∈ updateState obs f l) :
    ∃ q ∈ l, p = q ∨ p = (q.1, f q.2) := by
  induction l with
  | nil => simp [updateState] at h
  | cons q rest ih =>
    obtain ⟨k, s⟩ := q
    by_cases hk : k = obs
    · simp only [updateState, hk, if_true] at h
      rcases List.mem_cons.mp h with h | h
      · exact ⟨(k, s), List.mem_cons_self _ _, Or.inr (by simp [h, hk])⟩
      · exact ⟨p, List.mem_cons_of_mem _ h, Or.inl rfl⟩
    · simp only [updateState, hk, if_false] at h
      rcases List.mem_cons.mp h with h | h
      · exact ⟨(k, s), List.mem_cons_self _ _, Or.inl h⟩
      · obtain ⟨q', hq', hor⟩ := ih h
        exact ⟨q', List.mem_cons_of_mem _ hq', hor⟩

theorem mapStates_map_fst (f : State α → State α) (l : List (Nat × State α)) :
    (l.map (fun p => (p.1, f p.2))).map Prod.fst = l.map Prod.fst := by
  simp [List.map_map, Function.comp]

theorem map_fst_pair (g : Nat × State α → State α) (l : List (Nat × State α)) :
    (l.map (fun p => (p.1, g p))).map Prod.fst = l.map Prod.fst := by
  simp [List.map_map, Function.comp]

theorem foldl_add_length (l : List (Nat × State α)) (acc : Nat) :
    l.foldl (fun a p => a + p.2.notifications_.length) acc =
      acc + (l.map (fun p => p.2.notifications_.length)).sum := by
  induction l generalizing acc with
  | nil => simp
  | cons p rest ih => simp [ih, Nat.add_assoc]

/-- bufferTotal is the sum over the tracked streams of the buffer length. -/
theorem Deck.bufferTotal_eq_sum (d : Deck α) :
    d.bufferTotal = (d.states_.map (fun p => p.2.notifications_.length)).sum := by
  simpa using foldl_add_length d.states_ 0

theorem Deck.pause_paused (d : Deck α) : d.pause.paused_ = true := rfl

theorem Deck.pause_states (d : Deck α) : d.pause.states_ = d.states_ := rfl

theorem Deck.resume_paused (d : Deck α) : d.resume.paused_ = false := rfl

theorem Deck.resume_lookup (d : Deck α) (obs : Nat) :
    lookupState obs d.resume.states_ = (lookupState obs d.states_).map State.drain := by
  simpa [Deck.resume, mapStates] using lookupState_map State.drain d.states_ obs

theorem Deck.step_paused (d : Deck α) : d.step.paused_ = d.paused_ := rfl

theorem Deck.step_lookup (d : Deck α) (obs : Nat) :
    lookupState obs d.step.states_ = (lookupState obs d.states_).map State.stepOne := by
  simpa [Deck.step, mapStates] using lookupState_map State.stepOne d.states_ obs

theorem Deck.skip_paused (d : Deck α) : d.skip.paused_ = d.paused_ := rfl

theorem Deck.skip_lookup (d : Deck α) (obs : Nat) :
    lookupState obs d.skip.states_ = (lookupState obs d.states_).map State.skipOne := by
  simpa [Deck.skip, mapStates] using lookupState_map State.skipOne d.states_ obs

theorem Deck.clear_paused (d : Deck α) (p : Notification α → Bool) :
    (d.clear p).paused_ = d.paused_ := rfl

theorem Deck.clear_lookup (d : Deck α) (p : Notification α → Bool) (obs : Nat) :
    lookupState obs (d.clear p).states_ =
      (lookupState obs d.states_).map
        (fun s => { s with notifications_ := s.notifications_.filter (fun n => !(p n)) }) := by
  simpa [Deck.clear, mapStates] using
    lookupState_map
      (fun s => { s with notifications_ := s.notifications_.filter (fun n => !(p n)) })
      d.states_ obs

theorem Deck.unsubscribe_lookup (d : Deck α) (obs : Nat) :
    lookupState obs d.unsubscribe.states_ =
      (lookupState obs d.states_).map (fun s => { s with subscription_ := none }) := by
  simpa [Deck.unsubscribe] using
    lookupState_map (fun s => ({ s with subscription_ := none } : State α)) d.states_ obs

theorem Deck.unsubscribe_closed (d : Deck α) :
    d.unsubscribe.closed_ = d.closed_ ++ heldSubIds d.states_ := rfl

theorem Deck.onNotification_paused (d : Deck α) (obs : Nat) (n : Notification α) :
    (d.onNotification obs n).paused_ = d.paused_ := by
  unfold Deck.onNotification
  cases lookupState obs d.states_ <;> rfl

theorem Deck.onNotification_lookup_buffering (d : Deck α) (obs : Nat)
    (n : Notification α) (st : State α) (hp : d.paused_ = true)
    (hs : lookupState obs d.states_ = some st) :
    lookupState obs (d.onNotification obs n).states_ =
      some { st with notifications_ := st.notifications_ ++ [n] } := by
  unfold Deck.onNotification
  rw [hs]
  simp [lookupState_updateState_self, hs, hp]

theorem Deck.onNotification_lookup_forwarding (d : Deck α) (obs : Nat)
    (n : Notification α) (st : State α) (hp : d.paused_ = false)
    (hs : lookupState obs d.states_ = some st) :
    lookupState obs (d.onNotification obs n).states_ =
      some { st with forwarded_ := st.forwarded_ ++ [n] } := by
  unfold Deck.onNotification
  rw [hs]
  simp [lookupState_updateState_self, hs, hp]

theorem State.stepOne_eq_cons (s : State α) (n : Notification α)
    (rest : List (Notification α)) (h : s.notifications_ = n :: rest) :
    s.stepOne = { s with notifications_ := rest, forwarded_ := s.forwarded_ ++ [n] } := by
  obtain ⟨ln, lf, ls, lt⟩ := s
  dsimp only at h
  subst h
  rfl

theorem State.stepOne_eq_nil (s : State α) (h : s.notifications_ = []) :
    s.stepOne = s := by
  obtain ⟨ln, lf, ls, lt⟩ := s
  dsimp only at h
  subst h
  rfl

theorem State.skipOne_eq_cons (s : State α) (n : Notification α)
    (rest : List (Notification α)) (h : s.notifications_ = n :: rest) :
    s.skipOne = { s with notifications_ := rest } := by
  obtain ⟨ln, lf, ls, lt⟩ := s
  dsimp only at h
  subst h
  rfl

theorem State.skipOne_eq_nil (s : State α) (h : s.notifications_ = []) :
    s.skipOne = s := by
  obtain ⟨ln, lf, ls, lt⟩ := s
  dsimp only at h
  subst h
  rfl

theorem State.drain_eq_of_nil (s : State α) (h : s.notifications_ = []) :
    s.drain = s := by
  obtain ⟨ln, lf, ls, lt⟩ := s
  dsimp only at h
  subst h
  simp [State.drain]

theorem State.skipOne_subscription (s : State α) :
    s.skipOne.subscription_ = s.subscription_ := by
  obtain ⟨ln, lf, ls, lt⟩ := s
  cases ln <;> rfl

theorem State.stepOne_subscription (s : State α) :
    s.stepOne.subscription_ = s.subscription_ := by
  obtain ⟨ln, lf, ls, lt⟩ := s
  cases ln <;> rfl

theorem State.skipOne_notifications_nil (s : State α) (h : s.notifications_ = []) :
    s.skipOne.notifications_ = [] := by
  rw [State.skipOne_eq_nil s h, h]

theorem State.stepOne_notifications_nil (s : State α) (h : s.notifications_ = []) :
    s.stepOne.notifications_ = [] := by
  rw [State.stepOne_eq_nil s h, h]

theorem Deck.broadcast_sync (X : Deck α) :
    X.broadcast_.statsLog_.getLast? = some X.broadcast_.currentStats := by
  rw [Deck.broadcast_statsLog, List.getLast?_concat]
  rfl

theorem Deck.getOperator_new (read : Nat → Option String) (d : Deck α) (obs : Nat)
    (h : lookupState obs d.states_ = none) :
    Deck.getOperator read d obs =
      some (({ d with
          states_ := d.states_ ++ [(obs, freshState read d.nextSubId_ obs)],
          nextSubId_ := d.nextSubId_ + 1 } : Deck α).broadcast_) := by
  unfold Deck.getOperator
  rw [h]

theorem Deck.getOperator_replace (read : Nat → Option String) (d : Deck α)
    (obs : Nat) (st : State α) (old : Nat)
    (h : lookupState obs d.states_ = some st) (hsub : st.subscription_ = some old) :
    Deck.getOperator read d obs =
      some (({ d with
          states_ := updateState obs
            (fun s => { s with subscription_ := some d.nextSubId_ }) d.states_,
          closed_ := d.closed_ ++ [old],
          nextSubId_ := d.nextSubId_ + 1 } : Deck α).broadcast_) := by
  simp only [Deck.getOperator, h, hsub]

theorem Deck.getOperator_dead (read : Nat → Option String) (d : Deck α)
    (obs : Nat) (st : State α)
    (h : lookupState obs d.states_ = some st) (hsub : st.subscription_ = none) :
    Deck.getOperator read d obs = none := by
  simp only [Deck.getOperator, h, hsub]

theorem Deck.onNotification_untracked (d : Deck α) (obs : Nat) (n : Notification α)
    (h : lookupState obs d.states_ = none) : d.onNotification obs n = d := by
  unfold Deck.onNotification
  rw [h]

theorem Deck.onNotification_tracked (d : Deck α) (obs : Nat) (n : Notification α)
    (st : State α) (h : lookupState obs d.states_ = some st) :
    d.onNotification obs n =
      ({ d with
          states_ := updateState obs
            (fun s =>
              if d.paused_ then { s with notifications_ := s.notifications_ ++ [n] }
              else { s with forwarded_ := s.forwarded_ ++ [n] })
            d.states_ } : Deck α).broadcast_ := by
  unfold Deck.onNotification
  rw [h]

theorem Deck.pause_closed (d : Deck α) : d.pause.closed_ = d.closed_ := rfl

theorem Deck.pause_nextSubId (d : Deck α) : d.pause.nextSubId_ = d.nextSubId_ := rfl

theorem Deck.resume_states (d : Deck α) :
    d.resume.states_ = d.states_.map (fun p => (p.1, State.drain p.2)) := rfl

theorem Deck.resume_closed (d : Deck α) : d.resume.closed_ = d.closed_ := rfl

theorem Deck.resume_nextSubId (d : Deck α) : d.resume.nextSubId_ = d.nextSubId_ := rfl

theorem Deck.skip_states (d : Deck α) :
    d.skip.states_ = d.states_.map (fun p => (p.1, State.skipOne p.2)) := rfl

theorem Deck.skip_closed (d : Deck α) : d.skip.closed_ = d.closed_ := rfl

theorem Deck.skip_nextSubId (d : Deck α) : d.skip.nextSubId_ = d.nextSubId_ := rfl

theorem Deck.step_states (d : Deck α) :
    d.step.states_ = d.states_.map (fun p => (p.1, State.stepOne p.2)) := rfl

theorem Deck.step_closed (d : Deck α) : d.step.closed_ = d.closed_ := rfl

theorem Deck.step_nextSubId (d : Deck α) : d.step.nextSubId_ = d.nextSubId_ := rfl

theorem Deck.clear_states (d : Deck α) (p : Notification α → Bool) :
    (d.clear p).states_ = d.states_.map
      (fun q => (q.1,
        { q.2 with notifications_ := q.2.notifications_.filter (fun n => !(p n)) })) := rfl

theorem Deck.clear_closed (d : Deck α) (p : Notification α → Bool) :
    (d.clear p).closed_ = d.closed_ := rfl

theorem Deck.clear_nextSubId (d : Deck α) (p : Notification α → Bool) :
    (d.clear p).nextSubId_ = d.nextSubId_ := rfl

theorem Deck.unsubscribe_states (d : Deck α) :
    d.unsubscribe.states_ =
      d.states_.map (fun p => (p.1, { p.2 with subscription_ := none })) := rfl

theorem Deck.unsubscribe_paused (d : Deck α) :
    d.unsubscribe.paused_ = d.paused_ := rfl

theorem Deck.unsubscribe_nextSubId (d : Deck α) :
    d.unsubscribe.nextSubId_ = d.nextSubId_ := rfl

theorem mem_heldSubIds (l : List (Nat × State α)) (i : Nat) (h : i ∈ heldSubIds l) :
    ∃ q ∈ l, q.2.subscription_ = some i := by
  unfold heldSubIds at h
  obtain ⟨q, hq, hsub⟩ := List.mem_filterMap.mp h
  exact ⟨q, hq, hsub⟩

/-- Every reachable deck satisfies the invariants. -/
theorem reachable_inv {α : Type} {read : Nat → Option String} {d : Deck α}
    (h : Reachable read d) : DeckInv d := by
  induction h with
  | new =>
    exact ⟨List.nodup_nil, by intro q hq; simp [Deck.new] at hq,
      by intro i hi; simp [Deck.new] at hi,
      by intro _ q hq; simp [Deck.new] at hq, Or.inl rfl⟩
  | @pause d h ih =>
    refine ⟨ih.keysNodup, ih.subIdsLt, ih.closedLt, ?_, Or.inr (Deck.broadcast_sync _)⟩
    intro hp
    rw [Deck.pause_paused] at hp
    simp at hp
  | @resume d h ih =>
    refine ⟨?_, ?_, ih.closedLt, ?_, Or.inr (Deck.broadcast_sync _)⟩
    · rw [Deck.resume_states, mapStates_map_fst]
      exact ih.keysNodup
    · intro q hq i hi
      rw [Deck.resume_states] at hq
      obtain ⟨p, hp, rfl⟩ := List.mem_map.mp hq
      exact ih.subIdsLt p hp i hi
    · intro _ q hq
      rw [Deck.resume_states] at hq
      obtain ⟨p, hp, rfl⟩ := List.mem_map.mp hq
      rfl
  | @skip d h ih =>
    refine ⟨?_, ?_, ih.closedLt, ?_, Or.inr (Deck.broadcast_sync _)⟩
    · rw [Deck.skip_states, mapStates_map_fst]
      exact ih.keysNodup
    · intro q hq i hi
      rw [Deck.skip_states] at hq
      obtain ⟨p, hp, rfl⟩ := List.mem_map.mp hq
      rw [State.skipOne_subscription] at hi
      exact ih.subIdsLt p hp i hi
    · intro hp q hq
      rw [Deck.skip_states] at hq
      obtain ⟨p, hp', rfl⟩ := List.mem_map.mp hq
      exact State.skipOne_notifications_nil p.2 (ih.emptyWhenResumed hp p hp')
  | @step d h ih =>
    refine ⟨?_, ?_, ih.closedLt, ?_, Or.inr (Deck.broadcast_sync _)⟩
    · rw [Deck.step_states, mapStates_map_fst]
      exact ih.keysNodup
    · intro q hq i hi
      rw [Deck.step_states] at hq
      obtain ⟨p, hp, rfl⟩ := List.mem_map.mp hq
      rw [State.stepOne_subscription] at hi
      exact ih.subIdsLt p hp i hi
    · intro hp q hq
      rw [Deck.step_states] at hq
      obtain ⟨p, hp', rfl⟩ := List.mem_map.mp hq
      exact State.stepOne_notifications_nil p.2 (ih.emptyWhenResumed hp p hp')
  | @clear d p h ih =>
    refine ⟨?_, ?_, ih.closedLt, ?_, Or.inr (Deck.broadcast_sync _)⟩
    · rw [Deck.clear_states, map_fst_pair]
      exact ih.keysNodup
    · intro q hq i hi
      rw [Deck.clear_states] at hq
      obtain ⟨q', hq', rfl⟩ := List.mem_map.mp hq
      exact ih.subIdsLt q' hq' i hi
    · intro hp q hq
      rw [Deck.clear_states] at hq
      obtain ⟨q', hq', rfl⟩ := List.mem_map.mp hq
      show (q'.2.notifications_.filter (fun n => !(p n))) = []
      rw [ih.emptyWhenResumed hp q' hq']
      rfl
  | @unsub d h ih =>
    refine ⟨?_, ?_, ?_, ?_, Or.inr (Deck.broadcast_sync _)⟩
    · rw [Deck.unsubscribe_states, map_fst_pair]
      exact ih.keysNodup
    · intro q hq i hi
      rw [Deck.unsubscribe_states] at hq
      obtain ⟨p, hp, rfl⟩ := List.mem_map.mp hq
      simp at hi
    · intro i hi
      rw [Deck.unsubscribe_closed] at hi
      rcases List.mem_append.mp hi with hi | hi
      · exact ih.closedLt i hi
      · obtain ⟨q, hq, hsub⟩ := mem_heldSubIds d.states_ i hi
        exact ih.subIdsLt q hq i hsub
    · intro hp q hq
      rw [Deck.unsubscribe_states] at hq
      obtain ⟨p, hp', rfl⟩ := List.mem_map.mp hq
      exact ih.emptyWhenResumed hp p hp'
  | @getOp d d' obs h heq ih =>
    cases hl : lookupState obs d.states_ with
    | none =>
      rw [Deck.getOperator_new read d obs hl] at heq
      injection heq with heq
      subst heq
      refine ⟨?_, ?_, ?_, ?_, Or.inr (Deck.broadcast_sync _)⟩
      · rw [Deck.broadcast_states]
        show ((d.states_ ++ [(obs, freshState read d.nextSubId_ obs)]).map Prod.fst).Nodup
        rw [List.map_append]
        rw [List.nodup_append]
        refine ⟨ih.keysNodup, List.nodup_singleton _, ?_⟩
        intro x hx hx2
        simp at hx2
        rw [hx2] at hx
        exact (lookupState_eq_none_iff d.states_ obs).mp hl hx
      · intro q hq i hi
        rw [Deck.broadcast_states] at hq
        have hq' : q ∈ d.states_ ++ [(obs, freshState read d.nextSubId_ obs)] := hq
        rcases List.mem_append.mp hq' with hmem | hmem
        · exact Nat.lt_succ_of_lt (ih.subIdsLt q hmem i hi)
        · simp at hmem
          subst hmem
          simp [freshState] at hi
          subst hi
          exact Nat.lt_succ_self _
      · intro i hi
        have hi' : i ∈ d.closed_ := hi
        exact Nat.lt_succ_of_lt (ih.closedLt i hi')
      · intro hp q hq
        have hp' : d.paused_ = false := hp
        rw [Deck.broadcast_states] at hq
        have hq' : q ∈ d.states_ ++ [(obs, freshState read d.nextSubId_ obs)] := hq
        rcases List.mem_append.mp hq' with hmem | hmem
        · exact ih.emptyWhenResumed hp' q hmem
        · simp at hmem
          subst hmem
          rfl
    | some st =>
      cases hsub : st.subscription_ with
      | none =>
        rw [Deck.getOperator_dead read d obs st hl hsub] at heq
        exact Option.noConfusion heq
      | some old =>
        rw [Deck.getOperator_replace read d obs st old hl hsub] at heq
        injection heq with heq
        subst heq
        refine ⟨?_, ?_, ?_, ?_, Or.inr (Deck.broadcast_sync _)⟩
        · rw [Deck.broadcast_states]
          show ((updateState obs
            (fun s => { s with subscription_ := some d.nextSubId_ }) d.states_).map
              Prod.fst).Nodup
          rw [updateState_map_fst]
          exact ih.keysNodup
        · intro q hq i hi
          rw [Deck.broadcast_states] at hq
          have hq' : q ∈ updateState obs
              (fun s => { s with subscription_ := some d.nextSubId_ }) d.states_ := hq
          obtain ⟨p, hp, hor⟩ := mem_updateState _ d.states_ obs q hq'
          rcases hor with h1 | h1
          · rw [h1] at hi
            exact Nat.lt_succ_of_lt (ih.subIdsLt p hp i hi)
          · rw [h1] at hi
            have hi' : some d.nextSubId_ = some i := hi
            injection hi' with hi'
            rw [← hi']
            exact Nat.lt_succ_self _
        · intro i hi
          have hi' : i ∈ d.closed_ ++ [old] := hi
          rcases List.mem_append.mp hi' with hmem | hmem
          · exact Nat.lt_succ_of_lt (ih.closedLt i hmem)
          · simp at hmem
            subst hmem
            exact Nat.lt_succ_of_lt
              (ih.subIdsLt (obs, st) (lookupState_mem d.states_ obs st hl) i hsub)
        · intro hp q hq
          have hp' : d.paused_ = false := hp
          rw [Deck.broadcast_states] at hq
          have hq' : q ∈ updateState obs
              (fun s => { s with subscription_ := some d.nextSubId_ }) d.states_ := hq
          obtain ⟨p, hpm, hor⟩ := mem_updateState _ d.states_ obs q hq'
          rcases hor with h1 | h1
          · rw [h1]
            exact ih.emptyWhenResumed hp' p hpm
          · rw [h1]
            exact ih.emptyWhenResumed hp' p hpm
  | @notif d obs n h ih =>
    cases hl : lookupState obs d.states_ with
    | none =>
      rw [Deck.onNotification_untracked d obs n hl]
      exact ih
    | some st =>
      rw [Deck.onNotification_tracked d obs n st hl]
      refine ⟨?_, ?_, ih.closedLt, ?_, Or.inr (Deck.broadcast_sync _)⟩
      · rw [Deck.broadcast_states]
        show ((updateState obs _ d.states_).map Prod.fst).Nodup
        rw [updateState_map_fst]
        exact ih.keysNodup
      · intro q hq i hi
        rw [Deck.broadcast_states] at hq
        obtain ⟨p, hp, hor⟩ := mem_updateState _ d.states_ obs q hq
        rcases hor with h1 | h1
        · rw [h1] at hi
          exact ih.subIdsLt p hp i hi
        · rw [h1] at hi
          rcases hpa : d.paused_ with _ | _
          · rw [hpa] at hi
            simp at hi
            exact ih.subIdsLt p hp i hi
          · rw [hpa] at hi
            simp at hi
            exact ih.subIdsLt p hp i hi
      · intro hp q hq
        rw [Deck.broadcast_states] at hq
        obtain ⟨p, hpm, hor⟩ := mem_updateState _ d.states_ obs q hq
        have hp' : d.paused_ = false := hp
        rcases hor with h1 | h1
        · rw [h1]
          exact ih.emptyWhenResumed hp' p hpm
        · rw [h1]
          simp [hp']
          exact ih.emptyWhenResumed hp' p hpm

end DeckLemmas

section Claims

variable {α : Type}

/-- C2: for a paused deck controlling a stream with an empty buffer, three
notifications arriving in order are each appended to the buffer, and resume
forwards exactly those three, in arrival order, with no loss; afterwards the
deck is resumed and live notifications are forwarded immediately. -/
theorem deck_fifo_law (d : Deck α) (obs : Nat) (st : State α)
    (n1 n2 n3 n4 : Notification α)
    (hp : d.paused_ = true) (hs : lookupState obs d.states_ = some st)
    (hb : st.notifications_ = []) :
    ∃ st', lookupState obs
        ((((d.onNotification obs n1).onNotification obs n2).onNotification obs n3).resume).states_
        = some st' ∧
      st'.forwarded_ = st.forwarded_ ++ [n1, n2, n3] ∧
      st'.notifications_ = [] ∧
      ((((d.onNotification obs n1).onNotification obs n2).onNotification obs n3).resume).paused_
        = false ∧
      ∃ st'', lookupState obs
          ((((((d.onNotification obs n1).onNotification obs n2).onNotification
            obs n3).resume).onNotification obs n4)).states_ = some st'' ∧
        st''.forwarded_ = st.forwarded_ ++ [n1, n2, n3, n4] := by
  have h1 := Deck.onNotification_lookup_buffering d obs n1 st hp hs
  have p1 : (d.onNotification obs n1).paused_ = true := by
    rw [Deck.onNotification_paused]
    exact hp
  have h2 := Deck.onNotification_lookup_buffering _ obs n2 _ p1 h1
  have p2 : ((d.onNotification obs n1).onNotification obs n2).paused_ = true := by
    rw [Deck.onNotification_paused]
    exact p1
  have h3 := Deck.onNotification_lookup_buffering _ obs n3 _ p2 h2
  have hr : lookupState obs
      ((((d.onNotification obs n1).onNotification obs n2).onNotification obs n3).resume).states_
      = some (State.drain
          { st with notifications_ := ((st.notifications_ ++ [n1]) ++ [n2]) ++ [n3] }) := by
    rw [Deck.resume_lookup, h3]
    rfl
  have p4 : ((((d.onNotification obs n1).onNotification obs n2).onNotification
      obs n3).resume).paused_ = false := Deck.resume_paused _
  have h4 := Deck.onNotification_lookup_forwarding _ obs n4 _ p4 hr
  refine ⟨_, hr, ?_, ?_, p4, _, h4, ?_⟩
  · simp [State.drain, hb]
  · simp [State.drain]
  · simp [State.drain, hb]

/-- C2 witness at a concrete paused deck and the notifications 1, 2, 3, 4. -/
theorem deck_fifo_law_witness :
    ∃ st', lookupState 0
        ((((wDeck.onNotification 0 (Notification.nextN 1)).onNotification 0
          (Notification.nextN 2)).onNotification 0 (Notification.nextN 3)).resume).states_
        = some st' ∧
      st'.forwarded_ = wSt.forwarded_ ++
        [Notification.nextN 1, Notification.nextN 2, Notification.nextN 3] ∧
      st'.notifications_ = [] ∧
      ((((wDeck.onNotification 0 (Notification.nextN 1)).onNotification 0
        (Notification.nextN 2)).onNotification 0 (Notification.nextN 3)).resume).paused_
        = false ∧
      ∃ st'', lookupState 0
          ((((((wDeck.onNotification 0 (Notification.nextN 1)).onNotification 0
            (Notification.nextN 2)).onNotification 0 (Notification.nextN 3)).resume).onNotification
            0 (Notification.nextN 4))).states_ = some st'' ∧
        st''.forwarded_ = wSt.forwarded_ ++
          [Notification.nextN 1, Notification.nextN 2, Notification.nextN 3,
           Notification.nextN 4] :=
  deck_fifo_law wDeck 0 wSt (Notification.nextN 1) (Notification.nextN 2)
    (Notification.nextN 3) (Notification.nextN 4) rfl rfl rfl

/-- C3: with buffer [n1, n2] on a paused deck, step forwards exactly n1 and
leaves [n2] buffered with the deck still paused; skip instead discards n1,
leaves [n2] buffered, and forwards nothing. -/
theorem deck_step_skip (d : Deck α) (obs : Nat) (st : State α)
    (n1 n2 : Notification α)
    (hp : d.paused_ = true) (hs : lookupState obs d.states_ = some st)
    (hb : st.notifications_ = [n1, n2]) :
    d.step.paused_ = true ∧
    lookupState obs d.step.states_ =
      some { st with notifications_ := [n2], forwarded_ := st.forwarded_ ++ [n1] } ∧
    d.skip.paused_ = true ∧
    lookupState obs d.skip.states_ =
      some { st with notifications_ := [n2], forwarded_ := st.forwarded_ } := by
  refine ⟨?_, ?_, ?_, ?_⟩
  · rw [Deck.step_paused]
    exact hp
  · rw [Deck.step_lookup, hs]
    simp [State.stepOne_eq_cons st n1 [n2] hb]
  · rw [Deck.skip_paused]
    exact hp
  · rw [Deck.skip_lookup, hs]
    simp [State.skipOne_eq_cons st n1 [n2] hb]

/-- C3 witness at a concrete paused deck with buffer [1, 2]. -/
theorem deck_step_skip_witness :
    wDeck2.step.paused_ = true ∧
    lookupState 0 wDeck2.step.states_ =
      some { wSt2 with notifications_ := [Notification.nextN 2],
                       forwarded_ := wSt2.forwarded_ ++ [Notification.nextN 1] } ∧
    wDeck2.skip.paused_ = true ∧
    lookupState 0 wDeck2.skip.states_ =
      some { wSt2 with notifications_ := [Notification.nextN 2],
                       forwarded_ := wSt2.forwarded_ } :=
  deck_step_skip wDeck2 0 wSt2 (Notification.nextN 1) (Notification.nextN 2) rfl rfl rfl

/-- C4: clear with the default predicate removes every buffered notification
without forwarding any, so a subsequent resume forwards nothing that was
buffered before the clear; with a predicate, exactly the matching buffered
notifications are discarded and the rest remain in order, none forwarded. -/
theorem deck_clear (d : Deck α) (obs : Nat) (st : State α)
    (p : Notification α → Bool) (hs : lookupState obs d.states_ = some st) :
    lookupState obs (d.clear (fun _ => true)).states_ =
      some { st with notifications_ := [], forwarded_ := st.forwarded_ } ∧
    lookupState obs ((d.clear (fun _ => true)).resume).states_ =
      some { st with notifications_ := [], forwarded_ := st.forwarded_ } ∧
    lookupState obs (d.clear p).states_ =
      some { st with notifications_ := st.notifications_.filter (fun n => !(p n)),
                     forwarded_ := st.forwarded_ } := by
  have hall : lookupState obs (d.clear (fun _ => true)).states_ =
      some { st with notifications_ := [], forwarded_ := st.forwarded_ } := by
    rw [Deck.clear_lookup, hs]
    simp
  refine ⟨hall, ?_, ?_⟩
  · rw [Deck.resume_lookup, hall]
    simp [State.drain]
  · rw [Deck.clear_lookup, hs]
    simp

/-- C4 witness at a concrete paused deck with buffer [1, 2] and the
predicate matching exactly the notification 1. -/
theorem deck_clear_witness :
    lookupState 0 (wDeck2.clear (fun _ => true)).states_ =
      some { wSt2 with notifications_ := [], forwarded_ := wSt2.forwarded_ } ∧
    lookupState 0 ((wDeck2.clear (fun _ => true)).resume).states_ =
      some { wSt2 with notifications_ := [], forwarded_ := wSt2.forwarded_ } ∧
    lookupState 0 (wDeck2.clear (fun n => decide (n = Notification.nextN 1))).states_ =
      some { wSt2 with
        notifications_ :=
          wSt2.notifications_.filter (fun n => !(decide (n = Notification.nextN 1))),
        forwarded_ := wSt2.forwarded_ } :=
  deck_clear wDeck2 0 wSt2 (fun n => decide (n = Notification.nextN 1)) rfl

/-- C10: a newly constructed deck is paused before any control operation, so
a notification arriving through an interception stage while the deck is
paused is appended to the buffer and not forwarded to the subject. -/
theorem deck_new_paused_buffers (d : Deck α) (obs : Nat) (st : State α)
    (n : Notification α) (hp : d.paused_ = true)
    (hs : lookupState obs d.states_ = some st) :
    (Deck.new α).paused_ = true ∧
    lookupState obs (d.onNotification obs n).states_ =
      some { st with notifications_ := st.notifications_ ++ [n],
                     forwarded_ := st.forwarded_ } :=
  ⟨rfl, Deck.onNotification_lookup_buffering d obs n st hp hs⟩

/-- C10 witness at a concrete freshly intercepted deck. -/
theorem deck_new_paused_buffers_witness :
    (Deck.new Nat).paused_ = true ∧
    lookupState 0 (wDeck.onNotification 0 (Notification.nextN 7)).states_ =
      some { wSt with notifications_ := wSt.notifications_ ++ [Notification.nextN 7],
                      forwarded_ := wSt.forwarded_ } :=
  deck_new_paused_buffers wDeck 0 wSt (Notification.nextN 7) rfl rfl

/-- C5: pause on an already paused reachable deck and resume on an already
resumed reachable deck leave the paused flag and every state, buffer
included, unchanged; the only effect is publishing one statistics record,
identical to the last published record. -/
theorem deck_controls_idempotent {read : Nat → Option String} (d : Deck α)
    (h : Reachable read d) :
    (d.paused_ = true →
      d.pause.paused_ = d.paused_ ∧
      d.pause.states_ = d.states_ ∧
      d.pause.statsLog_ = d.statsLog_ ++ [d.currentStats] ∧
      (∀ s, d.statsLog_.getLast? = some s → s = d.currentStats)) ∧
    (d.paused_ = false →
      d.resume.paused_ = d.paused_ ∧
      d.resume.states_ = d.states_ ∧
      d.resume.statsLog_ = d.statsLog_ ++ [d.currentStats] ∧
      (∀ s, d.statsLog_.getLast? = some s → s = d.currentStats)) := by
  have inv := reachable_inv h
  have hlast : ∀ s, d.statsLog_.getLast? = some s → s = d.currentStats := by
    intro s hs
    rcases inv.statsSync with hempty | hsync
    · rw [hempty] at hs
      simp at hs
    · rw [hsync] at hs
      exact (Option.some.inj hs).symm
  constructor
  · intro hp
    refine ⟨by rw [Deck.pause_paused, hp], rfl, ?_, hlast⟩
    have hlog : d.pause.statsLog_ =
        d.statsLog_ ++ [({ d with paused_ := true } : Deck α).currentStats] := rfl
    rw [hlog]
    congr 2
    simp [Deck.currentStats, Deck.bufferTotal, hp]
  · intro hp
    have hempty := inv.emptyWhenResumed hp
    have hmap : d.states_.map (fun p => (p.1, State.drain p.2)) = d.states_ := by
      have h1 : ∀ p ∈ d.states_, (p.1, State.drain p.2) = id p := by
        intro p hp'
        rw [State.drain_eq_of_nil p.2 (hempty p hp')]
        rfl
      rw [List.map_congr_left h1, List.map_id]
    refine ⟨by rw [Deck.resume_paused, hp], ?_, ?_, hlast⟩
    · rw [Deck.resume_states, hmap]
    · have hlog : d.resume.statsLog_ =
          d.statsLog_ ++
            [({ mapStates State.drain d with paused_ := false } : Deck α).currentStats] := rfl
      rw [hlog]
      congr 2
      simp [Deck.currentStats, Deck.bufferTotal, mapStates, hmap, hp]

/-- C5 witness: a second pause on the reachable, already paused deck that a
first pause produced republishes the statistics record. -/
theorem deck_controls_idempotent_witness :
    ((Deck.new Nat).pause).pause.statsLog_ =
      ((Deck.new Nat).pause).statsLog_ ++ [((Deck.new Nat).pause).currentStats] :=
  ((deck_controls_idempotent ((Deck.new Nat).pause)
    (Reachable.pause (@Reachable.new Nat (fun _ => none)))).1 rfl).2.2.1

/-- C7: a reachable deck holds at most one interception state per distinct
observable (the map keys are distinct), and applying getOperator for an
observable whose state holds a live subscription closes that subscription,
installs a genuinely fresh one in the same single state, and adds no
duplicate entry. -/
theorem deck_one_state_per_stream {read : Nat → Option String} (d : Deck α)
    (h : Reachable read d) (obs : Nat) (st : State α) (old : Nat)
    (hs : lookupState obs d.states_ = some st) (ho : st.subscription_ = some old) :
    (d.states_.map Prod.fst).Nodup ∧
    ∃ d', Deck.getOperator read d obs = some d' ∧
      d'.closed_ = d.closed_ ++ [old] ∧
      lookupState obs d'.states_ = some { st with subscription_ := some d.nextSubId_ } ∧
      old < d.nextSubId_ ∧
      d.nextSubId_ ∉ d.closed_ ∧
      d'.states_.length = d.states_.length ∧
      d'.states_.map Prod.fst = d.states_.map Prod.fst := by
  have inv := reachable_inv h
  refine ⟨inv.keysNodup, _, Deck.getOperator_replace read d obs st old hs ho,
    rfl, ?_, ?_, ?_, ?_, ?_⟩
  · rw [Deck.broadcast_states]
    show lookupState obs (updateState obs
      (fun s => { s with subscription_ := some d.nextSubId_ }) d.states_) =
        some { st with subscription_ := some d.nextSubId_ }
    rw [lookupState_updateState_self, hs]
    rfl
  · exact inv.subIdsLt (obs, st) (lookupState_mem d.states_ obs st hs) old ho
  · intro hmem
    exact absurd (inv.closedLt _ hmem) (lt_irrefl _)
  · rw [Deck.broadcast_states]
    show (updateState obs
      (fun s => { s with subscription_ := some d.nextSubId_ }) d.states_).length =
        d.states_.length
    rw [updateState_length]
  · rw [Deck.broadcast_states]
    show (updateState obs
      (fun s => { s with subscription_ := some d.nextSubId_ }) d.states_).map Prod.fst =
        d.states_.map Prod.fst
    rw [updateState_map_fst]

/-- C7 witness: reinstalling the interception stage for observable 0 on the
reachable fixture deck. -/
theorem deck_one_state_per_stream_witness :
    (wDeckR.states_.map Prod.fst).Nodup ∧
    ∃ d', Deck.getOperator wRead wDeckR 0 = some d' ∧
      d'.closed_ = wDeckR.closed_ ++ [0] ∧
      lookupState 0 d'.states_ =
        some { freshState wRead 0 0 with subscription_ := some wDeckR.nextSubId_ } ∧
      0 < wDeckR.nextSubId_ ∧
      wDeckR.nextSubId_ ∉ wDeckR.closed_ ∧
      d'.states_.length = wDeckR.states_.length ∧
      d'.states_.map Prod.fst = wDeckR.states_.map Prod.fst :=
  deck_one_state_per_stream wDeckR (Reachable.getOp 0 (@Reachable.new Nat wRead) rfl)
    0 (freshState wRead 0 0) 0 rfl rfl

/-- C6: bufferTotal is the sum over all tracked streams of the buffer
length, and every operation, enqueue and dequeue included, publishes exactly
one statistics record carrying that sum and the paused flag of the deck at
publish time. -/
theorem deck_stats_invariant (d : Deck α) (p : Notification α → Bool)
    (read : Nat → Option String) (obs : Nat) (n : Notification α) :
    d.bufferTotal = (d.states_.map (fun q => q.2.notifications_.length)).sum ∧
    d.pause.statsLog_ = d.statsLog_ ++
      [{ notifications := d.pause.bufferTotal, paused := d.pause.paused_ }] ∧
    d.resume.statsLog_ = d.statsLog_ ++
      [{ notifications := d.resume.bufferTotal, paused := d.resume.paused_ }] ∧
    d.step.statsLog_ = d.statsLog_ ++
      [{ notifications := d.step.bufferTotal, paused := d.step.paused_ }] ∧
    d.skip.statsLog_ = d.statsLog_ ++
      [{ notifications := d.skip.bufferTotal, paused := d.skip.paused_ }] ∧
    (d.clear p).statsLog_ = d.statsLog_ ++
      [{ notifications := (d.clear p).bufferTotal, paused := (d.clear p).paused_ }] ∧
    d.unsubscribe.statsLog_ = d.statsLog_ ++
      [{ notifications := d.unsubscribe.bufferTotal, paused := d.unsubscribe.paused_ }] ∧
    (∀ d', Deck.getOperator read d obs = some d' →
      d'.statsLog_ = d.statsLog_ ++
        [{ notifications := d'.bufferTotal, paused := d'.paused_ }]) ∧
    (∀ st, lookupState obs d.states_ = some st →
      (d.onNotification obs n).statsLog_ = d.statsLog_ ++
        [{ notifications := (d.onNotification obs n).bufferTotal,
           paused := (d.onNotification obs n).paused_ }]) := by
  refine ⟨Deck.bufferTotal_eq_sum d, rfl, rfl, rfl, rfl, rfl, rfl, ?_, ?_⟩
  · intro d' heq
    cases hl : lookupState obs d.states_ with
    | none =>
      rw [Deck.getOperator_new read d obs hl] at heq
      injection heq with heq
      rw [← heq]
      rfl
    | some st =>
      cases hsub : st.subscription_ with
      | none =>
        rw [Deck.getOperator_dead read d obs st hl hsub] at heq
        exact Option.noConfusion heq
      | some old =>
        rw [Deck.getOperator_replace read d obs st old hl hsub] at heq
        injection heq with heq
        rw [← heq]
        rfl
  · intro st hst
    rw [Deck.onNotification_tracked d obs n st hst]
    rfl

/-- C6 witness: the pause record and the enqueue record published on the
concrete deck with buffer [1, 2]. -/
theorem deck_stats_invariant_witness :
    wDeck2.pause.statsLog_ = wDeck2.statsLog_ ++
      [{ notifications := wDeck2.pause.bufferTotal, paused := wDeck2.pause.paused_ }] ∧
    (wDeck2.onNotification 0 (Notification.nextN 3)).statsLog_ = wDeck2.statsLog_ ++
      [{ notifications := (wDeck2.onNotification 0 (Notification.nextN 3)).bufferTotal,
         paused := (wDeck2.onNotification 0 (Notification.nextN 3)).paused_ }] :=
  ⟨(deck_stats_invariant wDeck2 (fun _ => true) wRead 0 (Notification.nextN 3)).2.1,
   (deck_stats_invariant wDeck2 (fun _ => true) wRead 0
     (Notification.nextN 3)).2.2.2.2.2.2.2.2 wSt2 rfl⟩

/-- C1 counterexample: on a concrete deck with two buffered notifications,
unsubscribe leaves the buffer of the tracked stream unchanged and not empty,
refuting that unsubscribe clears every buffer. -/
theorem deck_unsubscribe_counterexample :
    (lookupState 0 wDeck2.unsubscribe.states_).map State.notifications_ =
      some [Notification.nextN 1, Notification.nextN 2] ∧
    ¬ (lookupState 0 wDeck2.unsubscribe.states_).map State.notifications_ = some [] := by
  constructor
  · rfl
  · decide

/-- C1 amended: Deck.unsubscribe closes the held subscription of every
tracked stream and clears the references, and the deck accepts new
interception for streams without a state afterwards; the notification
buffers are left exactly as they were, not cleared. -/
theorem deck_unsubscribe_teardown (d : Deck α) (read : Nat → Option String)
    (obs k : Nat) :
    (∀ q ∈ d.unsubscribe.states_, q.2.subscription_ = none) ∧
    d.unsubscribe.closed_ = d.closed_ ++ heldSubIds d.states_ ∧
    (lookupState k d.unsubscribe.states_).map State.notifications_ =
      (lookupState k d.states_).map State.notifications_ ∧
    (lookupState obs d.states_ = none →
      ∃ d', Deck.getOperator read d.unsubscribe obs = some d' ∧
        lookupState obs d'.states_ = some (freshState read d.nextSubId_ obs)) := by
  refine ⟨?_, rfl, ?_, ?_⟩
  · intro q hq
    rw [Deck.unsubscribe_states] at hq
    obtain ⟨p, hp, rfl⟩ := List.mem_map.mp hq
    rfl
  · rw [Deck.unsubscribe_lookup]
    cases lookupState k d.states_ <;> rfl
  · intro hnone
    have hnone' : lookupState obs d.unsubscribe.states_ = none := by
      rw [Deck.unsubscribe_lookup, hnone]
      rfl
    refine ⟨_, Deck.getOperator_new read d.unsubscribe obs hnone', ?_⟩
    rw [Deck.broadcast_states]
    show lookupState obs (d.unsubscribe.states_ ++
        [(obs, freshState read d.unsubscribe.nextSubId_ obs)]) =
      some (freshState read d.nextSubId_ obs)
    rw [lookupState_append_new d.unsubscribe.states_ obs _ hnone']
    rfl

/-- C1 witness: on the concrete deck, unsubscribe leaves the buffer of
stream 0 unchanged and a new stream 5 can be intercepted afterwards. -/
theorem deck_unsubscribe_teardown_witness :
    (lookupState 0 wDeck2.unsubscribe.states_).map State.notifications_ =
      (lookupState 0 wDeck2.states_).map State.notifications_ ∧
    ∃ d', Deck.getOperator wRead wDeck2.unsubscribe 5 = some d' ∧
      lookupState 5 d'.states_ = some (freshState wRead wDeck2.nextSubId_ 5) :=
  ⟨(deck_unsubscribe_teardown wDeck2 wRead 5 0).2.2.1,
   (deck_unsubscribe_teardown wDeck2 wRead 5 0).2.2.2 rfl⟩

theorem destChain_nil_iff (g : Nat → Option Nat) (fuel n : Nat) :
    destChain g (fuel + 1) n = [] ↔ g n = none := by
  cases hg : g n <;> simp [destChain, hg]

theorem destChain_last_spec (g : Nat → Option Nat) :
    ∀ fuel n r, (destChain g fuel n).length < fuel →
      (destChain g fuel n).getLast? = some r →
      r ∈ destChain g fuel n ∧ g r = none := by
  intro fuel
  induction fuel with
  | zero =>
    intro n r h _
    simp at h
  | succ k ih =>
    intro n r hlen hlast
    cases hg : g n with
    | none =>
      rw [show destChain g (k + 1) n = [] by simp [destChain, hg]] at hlast
      simp at hlast
    | some m =>
      have hchain : destChain g (k + 1) n = m :: destChain g k m := by
        simp [destChain, hg]
      rw [hchain] at hlast hlen ⊢
      cases hc : destChain g k m with
      | nil =>
        rw [hc] at hlast
        simp at hlast
        subst hlast
        have hk : 0 < k := by
          rw [hc] at hlen
          simpa using hlen
        obtain ⟨k2, rfl⟩ := Nat.exists_eq_succ_of_ne_zero (Nat.pos_iff_ne_zero.mp hk)
        exact ⟨List.mem_cons_self _ _, (destChain_nil_iff g k2 m).mp hc⟩
      | cons b l =>
        rw [hc, List.getLast?_cons_cons] at hlast
        have hlen2 : (destChain g k m).length < k := by
          rw [hc]
          rw [hc] at hlen
          simpa using hlen
        have hih := ih m r hlen2 (by rw [hc]; exact hlast)
        rw [hc] at hih
        exact ⟨List.mem_cons_of_mem _ hih.1, hih.2⟩

/-- C9: for the chain where node 1 observes node 0 and node 2 observes
node 1 (so the destination of 0 is 1, of 1 is 2, of 2 is null), the root
destination of 0 and of 1 is node 2 while node 2 has null root destination
and null destination; in general the root destination is null exactly when
the destination is null, and whenever the destination chain terminates
within the fuel, the root destination is a node reached by following
destination links that has no destination of its own. -/
theorem graph_root_destinations :
    (rootDestination chainG 3 0 = some 2 ∧
     rootDestination chainG 3 1 = some 2 ∧
     rootDestination chainG 3 2 = none ∧
     chainG 2 = none) ∧
    (∀ (g : Nat → Option Nat) (fuel n : Nat),
      (rootDestination g (fuel + 1) n = none ↔ g n = none) ∧
      ((destChain g (fuel + 1) n).length < fuel + 1 →
        ∀ r, rootDestination g (fuel + 1) n = some r →
          r ∈ destChain g (fuel + 1) n ∧ g r = none)) := by
  constructor
  · exact ⟨rfl, rfl, rfl, rfl⟩
  · intro g fuel n
    constructor
    · cases hg : g n with
      | none => simp [rootDestination, destChain, hg]
      | some m =>
        simp [rootDestination, destChain, hg, List.getLast?_eq_none_iff]
    · intro hterm r hr
      exact destChain_last_spec g (fuel + 1) n r hterm hr

/-- C9 witness: the general characterization evaluated on the three-node
chain at node 0. -/
theorem graph_root_destinations_witness :
    rootDestination chainG 3 0 = some 2 ∧
    (rootDestination chainG 3 0 = none ↔ chainG 0 = none) ∧
    (2 ∈ destChain chainG 3 0 ∧ chainG 2 = none) :=
  ⟨graph_root_destinations.1.1,
   (graph_root_destinations.2 chainG 2 0).1,
   (graph_root_destinations.2 chainG 2 0).2 (by decide) 2 graph_root_destinations.1.1⟩

/-- C8: a root subscription that terminates with any outcome is removed
from the sentinel source list immediately when the retention window is
zero; with a positive window the list is unchanged immediately after the
terminal event, and empty once the window has elapsed. -/
theorem graph_flush_retention (t d node : Nat) (outcome : Outcome) (hd : 0 < d) :
    (FlushState.terminate ⟨[node], []⟩ t 0 node outcome).sources.length = 0 ∧
    (FlushState.terminate ⟨[node], []⟩ t d node outcome).sources.length = 1 ∧
    ((FlushState.terminate ⟨[node], []⟩ t d node outcome).elapse (t + d)).sources.length
      = 0 := by
  have hd0 : d ≠ 0 := Nat.pos_iff_ne_zero.mp hd
  refine ⟨?_, ?_, ?_⟩
  · simp [FlushState.terminate]
  · simp [FlushState.terminate, hd0]
  · simp [FlushState.terminate, FlushState.elapse, hd0]

/-- C8 witness: node 7 terminating by completion at time 0 with windows 0
and 5. -/
theorem graph_flush_retention_witness :
    (FlushState.terminate ⟨[7], []⟩ 0 0 7 Outcome.completed).sources.length = 0 ∧
    (FlushState.terminate ⟨[7], []⟩ 0 5 7 Outcome.completed).sources.length = 1 ∧
    ((FlushState.terminate ⟨[7], []⟩ 0 5 7 Outcome.completed).elapse (0 + 5)).sources.length
      = 0 :=
  graph_flush_retention 0 5 7 Outcome.completed (by decide)

end Claims

end RxjsSpy
